import Mathlib

/-!
Verification development for the `debug-allocator` crate
(`src/alloc.rs`): a diagnostic decorator `DebugAlloc<A>` in front of a
memory allocator that records every allocation-lifecycle call into a
shared history log `Arc<RwLock<VecDeque<Action>>>`.

Shallow embedding conventions:
* `Layout` (Rust `std::alloc::Layout`) is a size/align pair of naturals;
  the crate treats it opaquely beyond display and equality.
* Addresses (`NonNull<()>` / `NonNull<u8>`) are modelled as `Nat`;
  the crate never inspects them.
* The shared store `Arc<RwLock<VecDeque<Action>>>` is a `Store`:
  the deque contents (oldest at the front, newest at the back) plus the
  poison flag of the lock.  `RwLock::read()`/`write()` return `Err` when the
  lock is poisoned, so code using `if let Ok(..)` silently skips the
  body, while code calling `.unwrap()` panics.  Operations that can
  panic are embedded as `Option`-valued functions (`none` = panic).
* The inner allocator is the opaque external collaborator; each
  decorator operation takes the result of the inner call as a parameter
  (`result : Option Nat`, `none` = `AllocError`) and threads the store.
-/

namespace DebugAllocator

/-- Rust `std::alloc::Layout`: a size-in-bytes / align-in-bytes pair,
opaque to this crate beyond display and equality. -/
structure Layout where
  size : Nat
  align : Nat
deriving DecidableEq, Repr

/-- `Kind` (src/alloc.rs, lines 64-72): the operation tag, carrying the
prior layout for the three resizing variants. -/
inductive Kind where
  | Allocate
  | Deallocate
  | AllocateZeroed
  | Grow (old_layout : Layout)
  | GrowZeroed (old_layout : Layout)
  | Shrink (old_layout : Layout)
deriving DecidableEq, Repr

/-- `Action` (src/alloc.rs, lines 9-14): one recorded lifecycle event.
`addr` models `Option<NonNull<()>>`. -/
structure Action where
  addr : Option Nat
  layout : Layout
  kind : Kind
deriving DecidableEq, Repr

/-- The shared history store `Arc<RwLock<VecDeque<Action>>>`: the deque
contents (oldest first) and the poison flag of the lock. -/
structure Store where
  entries : List Action
  poisoned : Bool
deriving DecidableEq, Repr

/-- `DebugAlloc::new` (lines 81-86): a fresh, healthy, empty store. -/
def Store.new : Store := ⟨[], false⟩

/-- `fmt_layout` (lines 19-26): renders a layout as
`\x7b size: S, align: A \x7d`. -/
def fmt_layout (layout : Layout) : String :=
  "\x7b size: " ++ toString layout.size ++ ", align: " ++
    toString layout.align ++ " \x7d"

/-- `impl Display for Action` (lines 28-62).  The pointer rendering
`\x7bptr:p\x7d` is platform/alloc-dependent, so it is a parameter
`fmtPtr`.  The final `writeln!` appends a trailing newline. -/
def Action.display (fmtPtr : Nat → String) (a : Action) : String :=
  (match a.kind with
    | Kind.Allocate => "allocate"
    | Kind.Deallocate => "deallocate"
    | Kind.AllocateZeroed => "allocate_zeroed"
    | Kind.Grow layout => "grow\n\told_layout: " ++ fmt_layout layout
    | Kind.GrowZeroed layout => "grow_zeroed\n\told_layout: " ++ fmt_layout layout
    | Kind.Shrink layout => "shrink\n\told_layout: " ++ fmt_layout layout)
  ++ (match a.kind with
    | Kind.Allocate | Kind.AllocateZeroed | Kind.Deallocate => "\n\tlayout: "
    | Kind.Grow _ | Kind.GrowZeroed _ | Kind.Shrink _ => "\n\tnew_layout: ")
  ++ fmt_layout a.layout
  ++ (match a.addr with
    | some addr => "\n\taddress: " ++ fmtPtr addr ++ "\n"
    | none => "\n\taddress: Allocation Error\n")

namespace DebugAlloc

/-- `DebugAlloc::history` (lines 88-90): `self.history.read().unwrap()`.
Panics (`none`) when the lock is poisoned. -/
def history (s : Store) : Option (List Action) :=
  if s.poisoned then none else some s.entries

/-- `DebugAlloc::poisoned` (lines 92-94): `self.history.is_poisoned()`. -/
def poisoned (s : Store) : Bool := s.poisoned

/-- `DebugAlloc::dump_all_history` (lines 97-102): prints
`history.iter().rev()`, i.e. every entry newest-first.  The returned
list is the sequence of printed actions; `none` = panic. -/
def dump_all_history (s : Store) : Option (List Action) :=
  (history s).map List.reverse

/-- `DebugAlloc::dump_n` (lines 105-110): prints
`history.iter().rev().take(n)`, the `n` most recent entries
newest-first; `none` = panic. -/
def dump_n (n : Nat) (s : Store) : Option (List Action) :=
  (history s).map (fun h => h.reverse.take n)

/-- `DebugAlloc::clear_history` (lines 113-115):
`self.history.write().unwrap().clear()`; `none` = panic. -/
def clear_history (s : Store) : Option Store :=
  if s.poisoned then none else some { s with entries := [] }

/-- `DebugAlloc::pop_history_n` (lines 118-126): under
`write().unwrap()`, if `len < n` clear, else keep `split_off(n)`
(the elements from index `n` on); `none` = panic. -/
def pop_history_n (n : Nat) (s : Store) : Option Store :=
  if s.poisoned then none
  else if s.entries.length < n then some { s with entries := [] }
  else some { s with entries := s.entries.drop n }

/-- `DebugAlloc::shrink_history` (lines 129-136): under
`write().unwrap()`, if `len > n` keep `split_off(len - n)` (the last
`n` elements), else leave unchanged; `none` = panic. -/
def shrink_history (n : Nat) (s : Store) : Option Store :=
  if s.poisoned then none
  else if s.entries.length > n then
    some { s with entries := s.entries.drop (s.entries.length - n) }
  else some s

/-- `Allocator::allocate` for `DebugAlloc` (lines 140-152): call the
inner allocator (its result is the parameter `result`), then, only if
`self.history.write()` is `Ok` (lock not poisoned), push an `Action`
with `addr = result.ok()`, and finally return `result` untouched. -/
def allocate (result : Option Nat) (layout : Layout) (s : Store) :
    Store × Option Nat :=
  let s' :=
    if s.poisoned then s
    else { s with entries := s.entries ++ [⟨result, layout, Kind.Allocate⟩] }
  (s', result)

/-- `Allocator::deallocate` for `DebugAlloc` (lines 154-163): call the
inner deallocate (returns nothing), then best-effort record an
`Action` with `addr = Some(ptr)`. -/
def deallocate (ptr : Nat) (layout : Layout) (s : Store) : Store × Unit :=
  let s' :=
    if s.poisoned then s
    else { s with entries := s.entries ++ [⟨some ptr, layout, Kind.Deallocate⟩] }
  (s', ())

/-- `Allocator::allocate_zeroed` for `DebugAlloc` (lines 165-177). -/
def allocate_zeroed (result : Option Nat) (layout : Layout) (s : Store) :
    Store × Option Nat :=
  let s' :=
    if s.poisoned then s
    else { s with entries := s.entries ++ [⟨result, layout, Kind.AllocateZeroed⟩] }
  (s', result)

/-- `Allocator::grow` for `DebugAlloc` (lines 179-195): the recorded
action holds the new layout, the old layout in the kind payload, and
`addr = result.ok()`. -/
def grow (result : Option Nat) (ptr : Nat) (old_layout new_layout : Layout)
    (s : Store) : Store × Option Nat :=
  let s' :=
    if s.poisoned then s
    else { s with entries :=
            s.entries ++ [⟨result, new_layout, Kind.Grow old_layout⟩] }
  (s', result)

/-- `Allocator::grow_zeroed` for `DebugAlloc` (lines 197-214). -/
def grow_zeroed (result : Option Nat) (ptr : Nat) (old_layout new_layout : Layout)
    (s : Store) : Store × Option Nat :=
  let s' :=
    if s.poisoned then s
    else { s with entries :=
            s.entries ++ [⟨result, new_layout, Kind.GrowZeroed old_layout⟩] }
  (s', result)

/-- `Allocator::shrink` for `DebugAlloc` (lines 216-233). -/
def shrink (result : Option Nat) (ptr : Nat) (old_layout new_layout : Layout)
    (s : Store) : Store × Option Nat :=
  let s' :=
    if s.poisoned then s
    else { s with entries :=
            s.entries ++ [⟨result, new_layout, Kind.Shrink old_layout⟩] }
  (s', result)

end DebugAlloc



open DebugAlloc

/-! ## Claim theorems -/

/-- C1, counterexample: the claim says every history-tooling operation
never fails the caller even in the degraded (poisoned-lock) state, but
on a poisoned store all five operations call `.unwrap()` on the lock
and panic: each returns `none`. -/
theorem C1_counterexample :
    ((DebugAlloc.dump_all_history ⟨[], true⟩).isSome = false)
    ∧ ((DebugAlloc.dump_n 1 ⟨[], true⟩).isSome = false)
    ∧ ((DebugAlloc.clear_history ⟨[], true⟩).isSome = false)
    ∧ ((DebugAlloc.pop_history_n 1 ⟨[], true⟩).isSome = false)
    ∧ ((DebugAlloc.shrink_history 1 ⟨[], true⟩).isSome = false) := by
  decide

/-- C1, amended: when the lock of the store is healthy (not poisoned), every
history-tooling operation (`dump_all`, `dump_n`, `clear`,
`pop_front_n`, `shrink_to_last_n`) completes normally; in the
poisoned state each of them panics (fails the caller). -/
theorem C1_amended (s : Store) (n : Nat) (h : s.poisoned = false) :
    (DebugAlloc.dump_all_history s).isSome
    ∧ (DebugAlloc.dump_n n s).isSome
    ∧ (DebugAlloc.clear_history s).isSome
    ∧ (DebugAlloc.pop_history_n n s).isSome
    ∧ (DebugAlloc.shrink_history n s).isSome := by
  simp only [DebugAlloc.dump_all_history, DebugAlloc.dump_n,
    DebugAlloc.history, DebugAlloc.clear_history, DebugAlloc.pop_history_n,
    DebugAlloc.shrink_history, h]
  refine ⟨rfl, rfl, rfl, ?_, ?_⟩ <;> split <;> try simp_all
  all_goals split <;> simp_all

/-- C1, witness for the amended theorem at a concrete healthy store. -/
theorem C1_witness :
    (Store.new.poisoned = false)
    ∧ ((DebugAlloc.dump_all_history Store.new).isSome
      ∧ (DebugAlloc.dump_n 2 Store.new).isSome
      ∧ (DebugAlloc.clear_history Store.new).isSome
      ∧ (DebugAlloc.pop_history_n 2 Store.new).isSome
      ∧ (DebugAlloc.shrink_history 2 Store.new).isSome) :=
  ⟨rfl, C1_amended Store.new 2 rfl⟩

/-- C2: every one of the six decorator operations returns exactly the
result the inner allocator produced for the unmodified arguments, in
every store state (healthy or poisoned): the history append never
alters it, and a failed append (poisoned lock) is silently skipped
(`result` may be `none`, a forwarded allocation failure). -/
theorem C2_pass_through (result : Option Nat) (ptr : Nat)
    (layout old_layout new_layout : Layout) (s : Store) :
    ((DebugAlloc.allocate result layout s).2 = result)
    ∧ ((DebugAlloc.deallocate ptr layout s).2 = ())
    ∧ ((DebugAlloc.allocate_zeroed result layout s).2 = result)
    ∧ ((DebugAlloc.grow result ptr old_layout new_layout s).2 = result)
    ∧ ((DebugAlloc.grow_zeroed result ptr old_layout new_layout s).2 = result)
    ∧ ((DebugAlloc.shrink result ptr old_layout new_layout s).2 = result) :=
  ⟨rfl, rfl, rfl, rfl, rfl, rfl⟩

/-- C9: every decorator operation changes the history only by appending
at the tail: the old entries stay, unchanged and in order, followed by
exactly one new `Action` when the lock is healthy and zero when it is
poisoned. -/
theorem C9_append_only (result : Option Nat) (ptr : Nat)
    (layout old_layout new_layout : Layout) (s : Store) :
    ((DebugAlloc.allocate result layout s).1.entries
      = s.entries ++ (if s.poisoned then []
          else [⟨result, layout, Kind.Allocate⟩]))
    ∧ ((DebugAlloc.deallocate ptr layout s).1.entries
      = s.entries ++ (if s.poisoned then []
          else [⟨some ptr, layout, Kind.Deallocate⟩]))
    ∧ ((DebugAlloc.allocate_zeroed result layout s).1.entries
      = s.entries ++ (if s.poisoned then []
          else [⟨result, layout, Kind.AllocateZeroed⟩]))
    ∧ ((DebugAlloc.grow result ptr old_layout new_layout s).1.entries
      = s.entries ++ (if s.poisoned then []
          else [⟨result, new_layout, Kind.Grow old_layout⟩]))
    ∧ ((DebugAlloc.grow_zeroed result ptr old_layout new_layout s).1.entries
      = s.entries ++ (if s.poisoned then []
          else [⟨result, new_layout, Kind.GrowZeroed old_layout⟩]))
    ∧ ((DebugAlloc.shrink result ptr old_layout new_layout s).1.entries
      = s.entries ++ (if s.poisoned then []
          else [⟨result, new_layout, Kind.Shrink old_layout⟩])) := by
  cases hp : s.poisoned <;>
    simp [DebugAlloc.allocate, DebugAlloc.deallocate,
      DebugAlloc.allocate_zeroed, DebugAlloc.grow, DebugAlloc.grow_zeroed,
      DebugAlloc.shrink, hp]

/-- C7: from an empty history, `allocate(L1)` (returning address `a1`),
then `deallocate(a1, L1)`, then `allocate(L2)` (returning `a2`), all
from one thread, makes `dump_all` emit, newest-first,
`[Allocate(L2), Deallocate(L1), Allocate(L1)]` — the actions in the
exact reverse of issue order. -/
theorem C7_sequencing (L1 L2 : Layout) (a1 a2 : Nat) :
    DebugAlloc.dump_all_history
      (DebugAlloc.allocate (some a2) L2
        (DebugAlloc.deallocate a1 L1
          (DebugAlloc.allocate (some a1) L1 Store.new).1).1).1
    = some [⟨some a2, L2, Kind.Allocate⟩,
            ⟨some a1, L1, Kind.Deallocate⟩,
            ⟨some a1, L1, Kind.Allocate⟩] := by
  rfl


/-- Concrete three-entry healthy store, `[A, B, C]` oldest-to-newest,
used by witnesses. -/
def sample3 : Store :=
  ⟨[⟨some 1, ⟨1, 1⟩, Kind.Allocate⟩, ⟨some 2, ⟨2, 1⟩, Kind.Allocate⟩,
    ⟨some 3, ⟨4, 1⟩, Kind.Allocate⟩], false⟩

/-- C3: the `Action` recorded by each of the six decorator operations
has `addr` present if and only if the underlying call succeeded; for
`Deallocate` the `addr` is always present and equals the address being
freed. -/
theorem C3_addr_presence (result : Option Nat) (ptr : Nat)
    (layout old_layout new_layout : Layout) (s : Store)
    (h : s.poisoned = false) :
    (∃ a, (DebugAlloc.allocate result layout s).1.entries = s.entries ++ [a]
      ∧ (a.addr.isSome ↔ result.isSome))
    ∧ (∃ a, (DebugAlloc.deallocate ptr layout s).1.entries = s.entries ++ [a]
      ∧ a.addr = some ptr ∧ a.kind = Kind.Deallocate)
    ∧ (∃ a, (DebugAlloc.allocate_zeroed result layout s).1.entries
        = s.entries ++ [a] ∧ (a.addr.isSome ↔ result.isSome))
    ∧ (∃ a, (DebugAlloc.grow result ptr old_layout new_layout s).1.entries
        = s.entries ++ [a] ∧ (a.addr.isSome ↔ result.isSome))
    ∧ (∃ a, (DebugAlloc.grow_zeroed result ptr old_layout new_layout s).1.entries
        = s.entries ++ [a] ∧ (a.addr.isSome ↔ result.isSome))
    ∧ (∃ a, (DebugAlloc.shrink result ptr old_layout new_layout s).1.entries
        = s.entries ++ [a] ∧ (a.addr.isSome ↔ result.isSome)) := by
  refine ⟨⟨⟨result, layout, Kind.Allocate⟩, ?_, Iff.rfl⟩,
    ⟨⟨some ptr, layout, Kind.Deallocate⟩, ?_, rfl, rfl⟩,
    ⟨⟨result, layout, Kind.AllocateZeroed⟩, ?_, Iff.rfl⟩,
    ⟨⟨result, new_layout, Kind.Grow old_layout⟩, ?_, Iff.rfl⟩,
    ⟨⟨result, new_layout, Kind.GrowZeroed old_layout⟩, ?_, Iff.rfl⟩,
    ⟨⟨result, new_layout, Kind.Shrink old_layout⟩, ?_, Iff.rfl⟩⟩ <;>
  simp [DebugAlloc.allocate, DebugAlloc.deallocate,
    DebugAlloc.allocate_zeroed, DebugAlloc.grow, DebugAlloc.grow_zeroed,
    DebugAlloc.shrink, h]

/-- C3, witness at a failed call (`result = none`), `ptr = 7`, and
concrete layouts on the fresh healthy store. -/
theorem C3_witness :
    (Store.new.poisoned = false)
    ∧ ((∃ a, (DebugAlloc.allocate none ⟨8, 4⟩ Store.new).1.entries
          = Store.new.entries ++ [a]
          ∧ (a.addr.isSome ↔ (none : Option Nat).isSome))
      ∧ (∃ a, (DebugAlloc.deallocate 7 ⟨8, 4⟩ Store.new).1.entries
          = Store.new.entries ++ [a]
          ∧ a.addr = some 7 ∧ a.kind = Kind.Deallocate)
      ∧ (∃ a, (DebugAlloc.allocate_zeroed none ⟨8, 4⟩ Store.new).1.entries
          = Store.new.entries ++ [a]
          ∧ (a.addr.isSome ↔ (none : Option Nat).isSome))
      ∧ (∃ a, (DebugAlloc.grow none 7 ⟨4, 4⟩ ⟨16, 4⟩ Store.new).1.entries
          = Store.new.entries ++ [a]
          ∧ (a.addr.isSome ↔ (none : Option Nat).isSome))
      ∧ (∃ a, (DebugAlloc.grow_zeroed none 7 ⟨4, 4⟩ ⟨16, 4⟩ Store.new).1.entries
          = Store.new.entries ++ [a]
          ∧ (a.addr.isSome ↔ (none : Option Nat).isSome))
      ∧ (∃ a, (DebugAlloc.shrink none 7 ⟨4, 4⟩ ⟨16, 4⟩ Store.new).1.entries
          = Store.new.entries ++ [a]
          ∧ (a.addr.isSome ↔ (none : Option Nat).isSome))) :=
  ⟨rfl, C3_addr_presence none 7 ⟨8, 4⟩ ⟨4, 4⟩ ⟨16, 4⟩ Store.new rfl⟩

/-- C4: on a healthy store, `pop_front_n(n)` (`pop_history_n`) removes
exactly the oldest `min(n, L)` entries — the removed prefix is
`take n`, of length `min n L` — leaving the remaining entries
(`drop n`) in their original order, and when `n ≥ L` its result
coincides with `clear()`. -/
theorem C4_pop_front_n (s : Store) (n : Nat) (h : s.poisoned = false) :
    ∃ s2, DebugAlloc.pop_history_n n s = some s2
      ∧ s2.entries = s.entries.drop n
      ∧ s.entries = s.entries.take n ++ s2.entries
      ∧ (s.entries.take n).length = min n s.entries.length
      ∧ (s.entries.length ≤ n → DebugAlloc.clear_history s = some s2) := by
  refine ⟨{ s with entries := s.entries.drop n }, ?_, rfl, ?_, ?_, ?_⟩
  · simp only [DebugAlloc.pop_history_n, h, Bool.false_eq_true, if_false]
    split
    · rename_i hlt
      rw [List.drop_eq_nil_of_le (Nat.le_of_lt hlt)]
    · rfl
  · exact (List.take_append_drop n s.entries).symm
  · exact List.length_take n s.entries
  · intro hle
    simp only [DebugAlloc.clear_history, h, Bool.false_eq_true, if_false]
    rw [List.drop_eq_nil_of_le hle]

/-- C4, witness: the spec example `[A, B, C]` with `pop_front_n 2`. -/
theorem C4_witness :
    (sample3.poisoned = false)
    ∧ (∃ s2, DebugAlloc.pop_history_n 2 sample3 = some s2
        ∧ s2.entries = sample3.entries.drop 2
        ∧ sample3.entries = sample3.entries.take 2 ++ s2.entries
        ∧ (sample3.entries.take 2).length = min 2 sample3.entries.length
        ∧ (sample3.entries.length ≤ 2 →
            DebugAlloc.clear_history sample3 = some s2)) :=
  ⟨rfl, C4_pop_front_n sample3 2 rfl⟩

/-- C5: on a healthy store, `shrink_to_last_n(n)` (`shrink_history`)
retains only the newest `min(n, L)` entries (`drop (L - n)`) in their
original order, discarding the older prefix, and is a no-op when
`L ≤ n`. -/
theorem C5_shrink_to_last_n (s : Store) (n : Nat) (h : s.poisoned = false) :
    ∃ s2, DebugAlloc.shrink_history n s = some s2
      ∧ s2.entries = s.entries.drop (s.entries.length - n)
      ∧ s2.entries.length = min n s.entries.length
      ∧ s.entries = s.entries.take (s.entries.length - n) ++ s2.entries
      ∧ (s.entries.length ≤ n → s2 = s) := by
  refine ⟨{ s with entries := s.entries.drop (s.entries.length - n) },
    ?_, rfl, ?_, ?_, ?_⟩
  · simp only [DebugAlloc.shrink_history, h, Bool.false_eq_true, if_false]
    split
    · rfl
    · rename_i hng
      have h0 : s.entries.length - n = 0 := by omega
      rw [h0, List.drop_zero]
      obtain ⟨es, p⟩ := s
      have hp : p = false := h
      subst hp
      rfl
  · rw [List.length_drop]
    omega
  · exact (List.take_append_drop _ s.entries).symm
  · intro hle
    have h0 : s.entries.length - n = 0 := by omega
    rw [h0, List.drop_zero]

/-- C5, witness: the spec example `[A, B, C]` with `shrink_to_last_n 1`. -/
theorem C5_witness :
    (sample3.poisoned = false)
    ∧ (∃ s2, DebugAlloc.shrink_history 1 sample3 = some s2
        ∧ s2.entries = sample3.entries.drop (sample3.entries.length - 1)
        ∧ s2.entries.length = min 1 sample3.entries.length
        ∧ sample3.entries
          = sample3.entries.take (sample3.entries.length - 1) ++ s2.entries
        ∧ (sample3.entries.length ≤ 1 → s2 = sample3)) :=
  ⟨rfl, C5_shrink_to_last_n sample3 1 rfl⟩

/-- C6: on a healthy store, `dump_n(n)` emits exactly the `min(n, L)`
most recent entries in newest-first order (the reverse of the
last `n` entries of the history), and emits nothing when the history is
empty or `n = 0`. -/
theorem C6_dump_n_emits (s : Store) (n : Nat) (h : s.poisoned = false) :
    ∃ out, DebugAlloc.dump_n n s = some out
      ∧ out = (s.entries.drop (s.entries.length - n)).reverse
      ∧ out.length = min n s.entries.length
      ∧ (s.entries = [] → out = [])
      ∧ (n = 0 → out = []) := by
  refine ⟨s.entries.reverse.take n, ?_, ?_, ?_, ?_, ?_⟩
  · simp [DebugAlloc.dump_n, DebugAlloc.history, h]
  · rw [List.take_reverse]
  · rw [List.length_take, List.length_reverse]
  · intro he
    simp [he]
  · intro h0
    simp [h0]

/-- C6, witness: `dump_n 2` on the concrete healthy store `[A, B, C]`. -/
theorem C6_witness :
    (sample3.poisoned = false)
    ∧ (∃ out, DebugAlloc.dump_n 2 sample3 = some out
        ∧ out = (sample3.entries.drop (sample3.entries.length - 2)).reverse
        ∧ out.length = min 2 sample3.entries.length
        ∧ (sample3.entries = [] → out = [])
        ∧ (2 = 0 → out = [])) :=
  ⟨rfl, C6_dump_n_emits sample3 2 rfl⟩


/-- C8: rendering a `Grow` action with old layout `(16, 4)`, new layout
`(32, 4)` and a present address yields, in order, the operation-name
line `grow`, the indented `old_layout` line, the indented `new_layout`
line, and the indented `address: <address>` line; a non-resizing kind
labels its layout line `layout:` and an absent address renders as
`address: Allocation Error`. -/
theorem C8_render (fmtPtr : Nat → String) (a : Nat) (l : Layout) :
    (Action.display fmtPtr ⟨some a, ⟨32, 4⟩, Kind.Grow ⟨16, 4⟩⟩
      = "grow\n\told_layout: \x7b size: 16, align: 4 \x7d\n\tnew_layout: \x7b size: 32, align: 4 \x7d\n\taddress: "
        ++ fmtPtr a ++ "\n")
    ∧ (Action.display fmtPtr ⟨none, l, Kind.Allocate⟩
      = "allocate" ++ "\n\tlayout: " ++ fmt_layout l
        ++ "\n\taddress: Allocation Error\n") := by
  constructor
  · have hsplit :
        ("grow\n\told_layout: \x7b size: 16, align: 4 \x7d\n\tnew_layout: \x7b size: 32, align: 4 \x7d\n\taddress: " : String)
          = "grow\n\told_layout: " ++ "\x7b size: 16, align: 4 \x7d"
            ++ "\n\tnew_layout: " ++ "\x7b size: 32, align: 4 \x7d"
            ++ "\n\taddress: " := by rfl
    simp only [Action.display]
    rw [show fmt_layout ⟨16, 4⟩ = "\x7b size: 16, align: 4 \x7d" from rfl,
      show fmt_layout ⟨32, 4⟩ = "\x7b size: 32, align: 4 \x7d" from rfl,
      hsplit]
    simp only [String.append_assoc]
  · rfl

/-- The action recorded for one allocate call `c = (result, layout)`
issued by some thread (the thread id is `c.1` of the scheduled
triple): `Action { addr: result, layout, kind: Allocate }`. -/
def alloc_action (c : Nat × Option Nat × Layout) : Action :=
  ⟨c.2.1, c.2.2, Kind.Allocate⟩

/-- One serialized execution of a schedule of allocate calls through
the shared store: each call holds the write lock for its whole append
(`RwLock` mutual exclusion), so a concurrent run is some interleaving
`sched` of the per-thread call lists, executed in sequence. -/
def run_allocs (sched : List (Nat × Option Nat × Layout)) (s : Store) :
    Store :=
  sched.foldl (fun st c => (DebugAlloc.allocate c.2.1 c.2.2 st).1) s

/-- Running allocate calls on a healthy store appends exactly one
action per call, in schedule order, and keeps the store healthy. -/
theorem run_allocs_entries (sched : List (Nat × Option Nat × Layout))
    (s : Store) (h : s.poisoned = false) :
    (run_allocs sched s).entries = s.entries ++ sched.map alloc_action
    ∧ (run_allocs sched s).poisoned = false := by
  induction sched generalizing s with
  | nil => simp [run_allocs, h]
  | cons hd tl ih =>
    have hstep : (DebugAlloc.allocate hd.2.1 hd.2.2 s).1
        = { s with entries := s.entries ++ [alloc_action hd] } := by
      simp [DebugAlloc.allocate, h, alloc_action]
    have hrec := ih { s with entries := s.entries ++ [alloc_action hd] } h
    constructor
    · show (run_allocs tl (DebugAlloc.allocate hd.2.1 hd.2.2 s).1).entries = _
      rw [hstep, hrec.1]
      simp [List.append_assoc]
    · show (run_allocs tl (DebugAlloc.allocate hd.2.1 hd.2.2 s).1).poisoned
        = false
      rw [hstep]
      exact hrec.2

/-- Every scheduled call belongs to exactly one thread, so the schedule
length is the sum of the per-thread filtered lengths. -/
theorem length_eq_sum_filter {β : Type} (sched : List (Nat × β)) (N : Nat)
    (h : ∀ p ∈ sched, p.1 < N) :
    sched.length = ∑ t in Finset.range N,
      (sched.filter (fun p => p.1 == t)).length := by
  induction sched with
  | nil => simp
  | cons hd tl ih =>
    have hhd : hd.1 < N := h hd (List.mem_cons_self _ _)
    have htl : ∀ p ∈ tl, p.1 < N := fun p hp => h p (List.mem_cons_of_mem _ hp)
    simp only [List.filter_cons, List.length_cons, ih htl]
    have hsum : ∀ t, ((if hd.1 == t then hd :: tl.filter (fun p => p.1 == t)
        else tl.filter (fun p => p.1 == t)).length)
        = (if hd.1 = t then 1 else 0)
          + (tl.filter (fun p => p.1 == t)).length := by
      intro t
      by_cases hc : hd.1 = t <;> simp [hc] <;> omega
    rw [Finset.sum_congr rfl (fun t _ => hsum t), Finset.sum_add_distrib,
      Finset.sum_ite_eq (Finset.range N) hd.1 (fun _ => 1)]
    simp [Finset.mem_range.mpr hhd]
    omega

/-- C10: for every interleaving `sched` of N per-thread lists of M
allocate calls each, run through the one shared store (each append
serialized by the write lock, no degradation), the final history
length is `N*M` — no lost appends — and the own M actions of each
thread appear in the history in the issuing order of that thread. -/
theorem C10_no_lost_appends (N M : Nat)
    (calls : Nat → List (Option Nat × Layout))
    (sched : List (Nat × Option Nat × Layout))
    (hid : ∀ p ∈ sched, p.1 < N)
    (hthread : ∀ t, t < N →
      (sched.filter (fun p => p.1 == t)).map Prod.snd = calls t)
    (hM : ∀ t, t < N → (calls t).length = M) :
    (run_allocs sched Store.new).entries.length = N * M
    ∧ ∀ t, t < N →
        List.Sublist
          ((calls t).map (fun c => Action.mk c.1 c.2 Kind.Allocate))
          (run_allocs sched Store.new).entries := by
  have hent := run_allocs_entries sched Store.new rfl
  constructor
  · rw [hent.1]
    simp only [Store.new, List.nil_append, List.length_map]
    rw [length_eq_sum_filter sched N hid]
    have hconst : ∀ t ∈ Finset.range N,
        (sched.filter (fun p => p.1 == t)).length = M := by
      intro t ht
      have ht' : t < N := Finset.mem_range.mp ht
      calc (sched.filter (fun p => p.1 == t)).length
          = ((sched.filter (fun p => p.1 == t)).map Prod.snd).length :=
            (List.length_map _ _).symm
        _ = (calls t).length := by rw [hthread t ht']
        _ = M := hM t ht'
    rw [Finset.sum_congr rfl hconst, Finset.sum_const, Finset.card_range,
      smul_eq_mul]
  · intro t ht
    have hsubm :=
      (List.filter_sublist (l := sched) (p := fun p => p.1 == t)).map
        alloc_action
    rw [hent.1]
    simp only [Store.new, List.nil_append]
    have hmap : (sched.filter (fun p => p.1 == t)).map alloc_action
        = (calls t).map (fun c => Action.mk c.1 c.2 Kind.Allocate) := by
      rw [← hthread t ht, List.map_map]
      rfl
    rw [← hmap]
    exact hsubm

/-- Per-thread call lists for the C10 witness: two threads, two
allocate calls each (one of them failing). -/
def callsEx : Nat → List (Option Nat × Layout)
  | 0 => [(some 10, ⟨1, 1⟩), (some 11, ⟨2, 1⟩)]
  | 1 => [(none, ⟨4, 1⟩), (some 12, ⟨8, 1⟩)]
  | _ => []

/-- A concrete interleaving of the two threads for the C10 witness. -/
def schedEx : List (Nat × Option Nat × Layout) :=
  [(0, some 10, ⟨1, 1⟩), (1, none, ⟨4, 1⟩),
   (1, some 12, ⟨8, 1⟩), (0, some 11, ⟨2, 1⟩)]

/-- C10, witness: two threads with two allocate calls each, under a
concrete interleaving, end with history length 4 and the
entries of each thread in their own order. -/
theorem C10_witness :
    (∀ p ∈ schedEx, p.1 < 2)
    ∧ (∀ t, t < 2 →
        (schedEx.filter (fun p => p.1 == t)).map Prod.snd = callsEx t)
    ∧ (∀ t, t < 2 → (callsEx t).length = 2)
    ∧ ((run_allocs schedEx Store.new).entries.length = 2 * 2
      ∧ ∀ t, t < 2 →
          List.Sublist
            ((callsEx t).map (fun c => Action.mk c.1 c.2 Kind.Allocate))
            (run_allocs schedEx Store.new).entries) :=
  ⟨by decide, by decide, by decide,
    C10_no_lost_appends 2 2 callsEx schedEx (by decide) (by decide)
      (by decide)⟩

end DebugAllocator
